import Mathlib

/-!
# PyPy `Python.h` compatibility header: preprocessor model

The repository's only source file is `pypy2.7-v7.3.20-win64/include/Python.h`, a
header made of preprocessor directives and two `typedef` declarations.  The header
is embedded as the list of its lines (`Python_h`), and its meaning is given by a
small model of the C preprocessor: conditional groups, `#define`, `typedef`,
`#include` and the expansion of object-like and function-like invocations.
`step` records an `#include` without following it; `stepWith` follows it into
the system headers, whose content is a parameter (`SysHeaders`).
-/

namespace PythonH

set_option maxRecDepth 100000

/-- A preprocessing token, by its spelling. -/
abbrev Tok := String

/-- The replacement information of a `#define`: `params = none` for an
object-like definition, `some ps` for a function-like one. -/
structure MacroDef where
  params : Option (List String)
  body : List Tok
  deriving DecidableEq, Repr

/-- The lines of a header, after comment removal. -/
inductive Line where
  | includeLine (header : String)
  | ifdefLine (name : String)
  | ifndefLine (name : String)
  | elseLine
  | endifLine
  | defineLine (name : String) (params : Option (List String)) (body : List Tok)
  | typedefLine (type : List Tok) (name : String)
  deriving DecidableEq, Repr

/-- Diagnostics the preprocessor model can raise. -/
inductive PPError where
  | redefinedDefine (name : String)
  | redefinedTypedef (name : String)
  | elseWithoutIf
  | elseAfterElse
  | endifWithoutIf
  | unterminatedIf
  deriving DecidableEq, Repr

/-- One open conditional group: whether the group currently selected is the
one whose condition holds, and whether its `#else` has been seen. -/
structure CondFrame where
  taken : Bool
  seenElse : Bool
  deriving DecidableEq, Repr

/-- What an `#include` line sees: the names bound by `#define` and by
`typedef` at that point. -/
structure IncludeEvent where
  header : String
  definedNames : List String
  typedefNames : List String
  deriving DecidableEq, Repr

/-- State of the translation unit while the header is processed. -/
structure PPState where
  defs : List (String × MacroDef)
  typedefs : List (String × List Tok)
  conds : List CondFrame
  introduced : List String
  includes : List IncludeEvent
  errors : List PPError
  deriving DecidableEq, Repr

/-- Association-list lookup by name (first binding wins). -/
def find? {β : Type} (name : String) : List (String × β) → Option β
  | [] => none
  | (k, v) :: rest => if k = name then some v else find? name rest

/-- The `defined NAME` test of `#ifdef` / `#ifndef`. -/
def PPState.isDefined (st : PPState) (name : String) : Bool :=
  (find? name st.defs).isSome

/-- Lines are processed only when every enclosing conditional group is taken. -/
def PPState.active (st : PPState) : Bool :=
  st.conds.all (fun f => f.taken)

/-- Processing of `#define`: a new name is bound; an identical redefinition is
benign (C 6.10.3p2); a different one is a diagnostic and keeps the old binding.
Every executed `#define` is recorded in `introduced`. -/
def PPState.define (st : PPState) (name : String) (m : MacroDef) : PPState :=
  match find? name st.defs with
  | none => { st with defs := st.defs ++ [(name, m)], introduced := st.introduced ++ [name] }
  | some old =>
    if old = m then { st with introduced := st.introduced ++ [name] }
    else { st with introduced := st.introduced ++ [name],
                   errors := st.errors ++ [PPError.redefinedDefine name] }

/-- Processing of `typedef T name;`: a new alias is bound; redeclaring the alias
with the same type is benign (C11 6.7p3); a different type is a diagnostic. -/
def PPState.typedef (st : PPState) (type : List Tok) (name : String) : PPState :=
  match find? name st.typedefs with
  | none => { st with typedefs := st.typedefs ++ [(name, type)],
                      introduced := st.introduced ++ [name] }
  | some old =>
    if old = type then { st with introduced := st.introduced ++ [name] }
    else { st with introduced := st.introduced ++ [name],
                   errors := st.errors ++ [PPError.redefinedTypedef name] }

/-- One line of the header.  An `#include` is recorded with what is defined at
that point and not followed (`stepWith` follows it). -/
def step (st : PPState) : Line → PPState
  | .ifdefLine name =>
    { st with conds := { taken := st.isDefined name, seenElse := false } :: st.conds }
  | .ifndefLine name =>
    { st with conds := { taken := !st.isDefined name, seenElse := false } :: st.conds }
  | .elseLine =>
    match st.conds with
    | [] => { st with errors := st.errors ++ [PPError.elseWithoutIf] }
    | f :: fs =>
      if f.seenElse then { st with errors := st.errors ++ [PPError.elseAfterElse] }
      else { st with conds := { taken := !f.taken, seenElse := true } :: fs }
  | .endifLine =>
    match st.conds with
    | [] => { st with errors := st.errors ++ [PPError.endifWithoutIf] }
    | _ :: fs => { st with conds := fs }
  | .includeLine h =>
    if st.active then
      { st with includes := st.includes ++
          [{ header := h, definedNames := st.defs.map Prod.fst,
             typedefNames := st.typedefs.map Prod.fst }] }
    else st
  | .defineLine name params body =>
    if st.active then st.define name { params := params, body := body } else st
  | .typedefLine type name =>
    if st.active then st.typedef type name else st

/-- All lines of a file, then the end-of-file check for open conditionals. -/
def processFile (st : PPState) (file : List Line) : PPState :=
  let st1 := file.foldl step st
  match st1.conds with
  | [] => st1
  | _ :: _ => { st1 with conds := [], errors := st1.errors ++ [PPError.unterminatedIf] }

/-- The predefined names the header tests: `__GNUC__` (GNU-compatible
compiler), `_WIN32` (Windows target) and `_WIN64` (64-bit Windows target). -/
structure Config where
  gnuc : Bool
  win32 : Bool
  win64 : Bool
  deriving DecidableEq, Repr

/-- The compiler's predefined definitions for a configuration.  The header only
tests these names with `#ifdef` / `#ifndef`, so the replacement is immaterial. -/
def Config.predefined (cfg : Config) : List (String × MacroDef) :=
  (if cfg.gnuc then [("__GNUC__", { params := none, body := ["4"] })] else []) ++
  (if cfg.win32 then [("_WIN32", { params := none, body := ["1"] })] else []) ++
  (if cfg.win64 then [("_WIN64", { params := none, body := ["1"] })] else [])

/-- Start of a translation unit. -/
def Config.initial (cfg : Config) : PPState :=
  { defs := cfg.predefined, typedefs := [], conds := [], introduced := [],
    includes := [], errors := [] }

/-- The file `pypy2.7-v7.3.20-win64/include/Python.h`, line by line. -/
def Python_h : List Line :=
  [ .includeLine "sys/types.h",                          -- 3: #include <sys/types.h>
    .includeLine "stdarg.h",                             -- 4: #include <stdarg.h>
    .ifdefLine "__GNUC__",                               -- 6: #ifdef __GNUC__
    .defineLine "_GNU_SOURCE" none ["1"],                -- 7: #define _GNU_SOURCE 1
    .endifLine,                                          -- 8: #endif
    .ifndefLine "_WIN32",                                -- 9: #ifndef _WIN32
    -- 10: # define Py_DEPRECATED(VERSION_UNUSED) __attribute__((__deprecated__))
    .defineLine "Py_DEPRECATED" (some ["VERSION_UNUSED"])
      ["__attribute__", "(", "(", "__deprecated__", ")", ")"],
    -- 11: # define PyAPI_FUNC(RTYPE) __attribute__((visibility("default"))) RTYPE
    .defineLine "PyAPI_FUNC" (some ["RTYPE"])
      ["__attribute__", "(", "(", "visibility", "(", "\"default\"", ")", ")", ")", "RTYPE"],
    -- 12: # define PyAPI_DATA(RTYPE) extern PyAPI_FUNC(RTYPE)
    .defineLine "PyAPI_DATA" (some ["RTYPE"])
      ["extern", "PyAPI_FUNC", "(", "RTYPE", ")"],
    -- 13: # define Py_LOCAL_INLINE(type) static inline type
    .defineLine "Py_LOCAL_INLINE" (some ["type"])
      ["static", "inline", "type"],
    .elseLine,                                           -- 14: #else
    -- 15: # define Py_DEPRECATED(VERSION_UNUSED)
    .defineLine "Py_DEPRECATED" (some ["VERSION_UNUSED"]) [],
    -- 16: #  define PyAPI_FUNC(RTYPE) __declspec(dllimport) RTYPE
    .defineLine "PyAPI_FUNC" (some ["RTYPE"])
      ["__declspec", "(", "dllimport", ")", "RTYPE"],
    -- 17: #  define PyAPI_DATA(RTYPE) extern __declspec(dllimport) RTYPE
    .defineLine "PyAPI_DATA" (some ["RTYPE"])
      ["extern", "__declspec", "(", "dllimport", ")", "RTYPE"],
    -- 18: # define Py_LOCAL_INLINE(type) static __inline type __fastcall
    .defineLine "Py_LOCAL_INLINE" (some ["type"])
      ["static", "__inline", "type", "__fastcall"],
    .endifLine,                                          -- 19: #endif
    .typedefLine ["void"] "PyObject",                    -- 21: typedef void PyObject;
    .ifdefLine "_WIN64",                                 -- 23: #ifdef _WIN64
    .typedefLine ["long", "long"] "Py_ssize_t",          -- 24: typedef long long Py_ssize_t;
    .elseLine,                                           -- 25: #else
    .typedefLine ["long"] "Py_ssize_t",                  -- 26: typedef long Py_ssize_t;
    .endifLine,                                          -- 27: #endif
    .includeLine "patchlevel.h",                         -- 29: #include <patchlevel.h>
    .includeLine "modsupport.h",                         -- 30: #include <modsupport.h>
    .includeLine "stdarg.h",                             -- 32: #include <stdarg.h>
    .includeLine "stdio.h",                              -- 33: #include <stdio.h>
    .includeLine "string.h",                             -- 34: #include <string.h>
    .includeLine "assert.h",                             -- 35: #include <assert.h>
    .includeLine "locale.h",                             -- 36: #include <locale.h>
    .includeLine "ctype.h",                              -- 37: #include <ctype.h>
    .defineLine "WITH_THREAD" none [] ]                  -- 40: #define WITH_THREAD

/-- The translation unit after `#include "Python.h"` as its first line. -/
def includeOnce (cfg : Config) : PPState :=
  processFile cfg.initial Python_h

/-- The translation unit after including the header twice in a row. -/
def includeTwice (cfg : Config) : PPState :=
  processFile (includeOnce cfg) Python_h

/-! ## Expansion of invocations -/

/-- Collects the arguments of a function-like invocation, starting right after
its opening parenthesis: `depth` counts the nested parentheses open inside the
current argument, `cur` is the current argument (reversed) and `done` the
finished ones (reversed).  Returns the arguments and the tokens that follow the
closing parenthesis; `none` when the closing parenthesis is missing. -/
def parseArgs (depth : Nat) (cur : List Tok) (done : List (List Tok)) :
    List Tok → Option (List (List Tok) × List Tok)
  | [] => none
  | t :: rest =>
    if t = "(" then parseArgs (depth + 1) (t :: cur) done rest
    else if t = ")" then
      match depth with
      | 0 => some ((cur.reverse :: done).reverse, rest)
      | d + 1 => parseArgs d (t :: cur) done rest
    else if t = "," ∧ depth = 0 then parseArgs 0 [] (cur.reverse :: done) rest
    else parseArgs depth (t :: cur) done rest

/-- Replaces each parameter in a replacement list by its argument.  An argument
is fully expanded (`expandArg`) at each place where it is substituted, and only
there; the operators `#` and `##` do not occur in this header and are not
modelled. -/
def substitute (expandArg : List Tok → Option (List Tok)) (params : List String)
    (args : List (List Tok)) : List Tok → Option (List Tok)
  | [] => some []
  | t :: rest =>
    match find? t (params.zip args) with
    | some arg =>
      match expandArg arg, substitute expandArg params args rest with
      | some a, some r => some (a ++ r)
      | _, _ => none
    | none => (substitute expandArg params args rest).map (fun r => t :: r)

/-- Expansion of a token sequence against the definitions `env`.  `hide` holds
the names whose replacement is being rescanned (a name is not expanded inside
its own expansion).  Each token scanned and each nested rescan costs one unit of
`fuel`; `none` means the fuel ran out or an invocation is ill-formed
(unterminated argument list, wrong number of arguments).  The rescan of a
replacement covers the replacement only, not the tokens that follow it. -/
def expand (env : List (String × MacroDef)) : Nat → List String → List Tok → Option (List Tok)
  | _, _, [] => some []
  | 0, _, _ :: _ => none
  | fuel + 1, hide, t :: rest =>
    match (if t ∈ hide then none else find? t env) with
    | none => (expand env fuel hide rest).map (fun r => t :: r)
    | some m =>
      match m.params with
      | none =>
        match expand env fuel (t :: hide) m.body, expand env fuel hide rest with
        | some out, some tail => some (out ++ tail)
        | _, _ => none
      | some ps =>
        match rest with
        | [] => some [t]
        | p :: rest1 =>
          if p = "(" then
            match parseArgs 0 [] [] rest1 with
            | none => none
            | some (args0, rest2) =>
              let args := if ps = [] ∧ args0 = [[]] then [] else args0
              if args.length = ps.length then
                match substitute (expand env fuel hide) ps args m.body with
                | none => none
                | some body =>
                  match expand env fuel (t :: hide) body, expand env fuel hide rest2 with
                  | some out, some tail => some (out ++ tail)
                  | _, _ => none
              else none
          else (expand env fuel hide rest).map (fun r => t :: r)

/-- Scans a token sequence as (part of) one argument: the nesting depth at its
end, or `none` if it closes a parenthesis it did not open or holds a comma
outside parentheses. -/
def argDepth (depth : Nat) : List Tok → Option Nat
  | [] => some depth
  | t :: rest =>
    if t = "(" then argDepth (depth + 1) rest
    else if t = ")" then
      match depth with
      | 0 => none
      | d + 1 => argDepth d rest
    else if t = "," ∧ depth = 0 then none
    else argDepth depth rest

/-- A token sequence that can stand as the single argument of an invocation
`NAME(T)`: parentheses balanced, commas only inside parentheses. -/
def IsMacroArg (T : List Tok) : Prop := argDepth 0 T = some 0

instance (T : List Tok) : Decidable (IsMacroArg T) := by
  unfold IsMacroArg; infer_instance

/-- The invocation `NAME(T)` as a token sequence. -/
def invocation (name : String) (T : List Tok) : List Tok :=
  name :: "(" :: (T ++ [")"])

/-- Modelled from the spec: the calling-convention qualifiers (the specification
names `__fastcall`, `__stdcall` and `__cdecl` as examples), in the keyword
spellings and in the attribute spellings of the supported compilers. -/
def callConvQualifiers : List Tok :=
  ["__cdecl", "_cdecl", "cdecl", "__stdcall", "_stdcall", "stdcall", "__fastcall", "_fastcall",
   "fastcall", "__thiscall", "thiscall", "__vectorcall", "vectorcall", "__clrcall", "__pascal",
   "__regcall", "regparm", "ms_abi", "sysv_abi"]

/-- Whether a token is a calling-convention qualifier. -/
def isCallConv (t : Tok) : Bool := decide (t ∈ callConvQualifiers)

/-! ## Vocabulary of the claims -/

/-- The tokens of the header's replacement lists other than parameters and the
nested `PyAPI_FUNC`. -/
def replacementToks : List Tok :=
  ["__attribute__", "(", ")", "__deprecated__", "visibility", "\"default\"", "extern", "static",
   "inline", "__declspec", "dllimport", "__inline", "__fastcall"]

/-- The annotation `PyAPI_FUNC` puts in front of its argument. -/
def exportAttr (win32 : Bool) : List Tok :=
  if win32 then ["__declspec", "(", "dllimport", ")"]
  else ["__attribute__", "(", "(", "visibility", "(", "\"default\"", ")", ")", ")"]

/-- The replacement `Py_DEPRECATED` has in the branch for `win32`. -/
def deprecatedAttr (win32 : Bool) : List Tok :=
  if win32 then [] else ["__attribute__", "(", "(", "__deprecated__", ")", ")"]

/-- The inline keyword `Py_LOCAL_INLINE` uses in the branch for `win32`. -/
def inlineKeyword (win32 : Bool) : Tok :=
  if win32 then "__inline" else "inline"

/-- The qualifier `Py_LOCAL_INLINE` puts after its argument in the branch for `win32`. -/
def inlineSuffix (win32 : Bool) : List Tok :=
  if win32 then ["__fastcall"] else []

/-- Modelled from the spec: the target data models the claim on the width of
`Py_ssize_t` names.  The header does not state the widths of the C types; they
are those of the three ABIs: ILP32 (`long` and pointers 32-bit), LP64 (`long`
and pointers 64-bit), LLP64 (`long` 32-bit, `long long` and pointers 64-bit). -/
inductive DataModel where
  | ILP32
  | LP64
  | LLP64
  deriving DecidableEq, Repr

/-- Modelled from the spec: width of `long` in bits. -/
def DataModel.longBits : DataModel → Nat
  | .ILP32 => 32
  | .LP64 => 64
  | .LLP64 => 32

/-- Modelled from the spec: width of `long long` in bits. -/
def DataModel.longLongBits : DataModel → Nat
  | .ILP32 => 64
  | .LP64 => 64
  | .LLP64 => 64

/-- Modelled from the spec: width of `void*` in bits. -/
def DataModel.pointerBits : DataModel → Nat
  | .ILP32 => 32
  | .LP64 => 64
  | .LLP64 => 64

/-- Width in bits of the integer types the header names. -/
def typeBits (dm : DataModel) (type : List Tok) : Option Nat :=
  if type = ["long"] then some dm.longBits
  else if type = ["long", "long"] then some dm.longLongBits
  else none

/-- The type the processed header binds to `Py_ssize_t`. -/
def ssizeType (cfg : Config) : Option (List Tok) :=
  find? "Py_ssize_t" (includeOnce cfg).typedefs

/-- The seven names of the header's surface as the specification lists them. -/
def surfaceNames : List String :=
  ["PyObject", "Py_ssize_t", "Py_DEPRECATED", "PyAPI_FUNC", "PyAPI_DATA", "Py_LOCAL_INLINE",
   "WITH_THREAD"]

/-- The include events of the two headers that declare the rest of the API. -/
def apiIncludes (cfg : Config) : List IncludeEvent :=
  (includeOnce cfg).includes.filter
    (fun e => e.header = "patchlevel.h" ∨ e.header = "modsupport.h")

/-! ## System headers

The header's first line includes `sys/types.h`.  The content of the system
headers is not part of the repository; it is taken as a parameter, with the two
cases that bear on the header's replacement lists. -/

/-- The C library whose headers the `#include` lines reach.  `plain`: no system
header defines a name that the header defines or a token of its replacement
lists.  `glibc`: `sys/types.h` includes `features.h`, which includes
`sys/cdefs.h`, whose lines 275-277 read
`#if !(defined __GNUC__ || defined __clang__)`, `# define __attribute__(xyz)`,
`#endif`, so that attributes vanish for compilers that do not know them. -/
inductive SysHeaders where
  | plain
  | glibc
  deriving DecidableEq, Repr

/-- The lines an included header contributes, as far as they bear on the
header.  The include guard of `sys/cdefs.h` makes its later inclusions (through
`stdio.h` and the others) contribute nothing more. -/
def SysHeaders.content : SysHeaders → String → List Line
  | .plain, _ => []
  | .glibc, h =>
    if h = "sys/types.h" then
      [ .ifndefLine "__GNUC__",
        .ifndefLine "__clang__",
        .defineLine "__attribute__" (some ["xyz"]) [],
        .endifLine,
        .endifLine ]
    else []

/-- Processing of the content of an included header: its lines are processed
as a file of their own on the current definitions; what they define stays
defined afterwards, while `introduced` keeps listing the names of the including
header only. -/
def PPState.follow (st : PPState) (content : List Line) : PPState :=
  let inner := processFile { st with conds := [] } content
  { st with defs := inner.defs, typedefs := inner.typedefs, errors := inner.errors }

/-- One line of the header, with `#include` followed into the system headers
of `sys`; every other line is processed by `step`. -/
def stepWith (sys : SysHeaders) (st : PPState) : Line → PPState
  | .includeLine h =>
    if st.active then (step st (.includeLine h)).follow (sys.content h) else st
  | line => step st line

/-- All lines of a file with includes followed, then the end-of-file check. -/
def processFileWith (sys : SysHeaders) (st : PPState) (file : List Line) : PPState :=
  let st1 := file.foldl (stepWith sys) st
  match st1.conds with
  | [] => st1
  | _ :: _ => { st1 with conds := [], errors := st1.errors ++ [PPError.unterminatedIf] }

/-- The translation unit after `#include "Python.h"` as its first line, the
system headers being those of `sys`. -/
def includeOnceWith (sys : SysHeaders) (cfg : Config) : PPState :=
  processFileWith sys cfg.initial Python_h

/-- Whether the system headers define `__attribute__` away in the
configuration: glibc does for a compiler that does not define `__GNUC__`. -/
def attributeErased (sys : SysHeaders) (cfg : Config) : Bool :=
  match sys with
  | .plain => false
  | .glibc => !cfg.gnuc

/-- What is left of the annotation of `PyAPI_FUNC` after the rescan. -/
def exportAnnot (sys : SysHeaders) (cfg : Config) : List Tok :=
  if cfg.win32 then ["__declspec", "(", "dllimport", ")"]
  else if attributeErased sys cfg then []
  else ["__attribute__", "(", "(", "visibility", "(", "\"default\"", ")", ")", ")"]

/-- What is left of the replacement of `Py_DEPRECATED` after the rescan. -/
def deprecatedAnnot (sys : SysHeaders) (cfg : Config) : List Tok :=
  if cfg.win32 then []
  else if attributeErased sys cfg then []
  else ["__attribute__", "(", "(", "__deprecated__", ")", ")"]

/-! ## Lemmas on the expansion model -/

theorem parseArgs_append (T : List Tok) :
    ∀ (d d1 : Nat) (cur : List Tok) (done : List (List Tok)) (rest : List Tok),
      argDepth d T = some d1 →
      parseArgs d cur done (T ++ rest) = parseArgs d1 (T.reverse ++ cur) done rest := by
  induction T with
  | nil =>
    intro d d1 cur done rest h
    simp [argDepth] at h
    simp [h]
  | cons t T ih =>
    intro d d1 cur done rest h
    simp only [argDepth] at h
    simp only [List.cons_append, parseArgs, List.reverse_cons, List.append_assoc,
      List.singleton_append]
    by_cases h1 : t = "("
    · simp only [h1, if_true] at h ⊢
      exact ih _ _ _ _ _ h
    · simp only [h1, if_false] at h ⊢
      by_cases h2 : t = ")"
      · simp only [h2, if_true] at h ⊢
        cases d with
        | zero => simp at h
        | succ d => exact ih _ _ _ _ _ h
      · simp only [h2, if_false] at h ⊢
        by_cases h3 : t = "," ∧ d = 0
        · simp [h3] at h
        · simp only [h3, if_false] at h ⊢
          exact ih _ _ _ _ _ h

theorem parseArgs_arg (T rest : List Tok) (hT : IsMacroArg T) :
    parseArgs 0 [] [] (T ++ ")" :: rest) = some ([T], rest) := by
  rw [parseArgs_append T 0 0 [] [] _ hT]
  simp [parseArgs]

theorem expand_nil (env : List (String × MacroDef)) (fuel : Nat) (hide : List String) :
    expand env fuel hide [] = some [] := by
  cases fuel <;> simp [expand]

theorem expand_plain (env : List (String × MacroDef)) (T : List Tok) :
    ∀ (fuel : Nat) (hide : List String),
      (∀ t ∈ T, find? t env = none) → T.length ≤ fuel → expand env fuel hide T = some T := by
  induction T with
  | nil => intro fuel hide _ _; cases fuel <;> simp [expand]
  | cons t T ih =>
    intro fuel hide hp hf
    cases fuel with
    | zero => simp at hf
    | succ fuel =>
      have ht : find? t env = none := hp t (List.mem_cons_self _ _)
      have hT : ∀ u ∈ T, find? u env = none := fun u hu => hp u (List.mem_cons_of_mem _ hu)
      have hl : T.length ≤ fuel := by simpa using hf
      simp [expand, ht, ih fuel hide hT hl]

/-- One step of `expand` at an invocation `NAME(T)` of a one-parameter
definition, when `T` is a single argument. -/
theorem expand_call (env : List (String × MacroDef)) (name p : String) (body T : List Tok)
    (fuel : Nat) (hide : List String)
    (hdef : find? name env = some { params := some [p], body := body })
    (hh : name ∉ hide) (hT : IsMacroArg T) :
    expand env (fuel + 1) hide (invocation name T) =
      match substitute (expand env fuel hide) [p] [T] body with
      | none => none
      | some b => expand env fuel (name :: hide) b := by
  have hp : parseArgs 0 [] [] (T ++ [")"]) = some ([T], []) := parseArgs_arg T [] hT
  have hnil : expand env fuel hide [] = some [] := expand_nil env fuel hide
  simp only [invocation, expand, hh, if_false, hdef, if_true]
  rw [hp]
  have hne : ¬ ([p] = [] ∧ [T] = [[]]) := by simp
  simp only [hne, if_false, List.length_singleton, if_true, hnil]
  generalize substitute (expand env fuel hide) [p] [T] body = r
  cases r with
  | none => rfl
  | some b =>
    simp only
    generalize expand env fuel (name :: hide) b = q
    cases q <;> simp

/-! ## Facts about the header -/

theorem replacementToks_plain (cfg : Config) :
    ∀ t ∈ replacementToks, find? t (includeOnce cfg).defs = none := by
  rcases cfg with ⟨_ | _, _ | _, _ | _⟩ <;> decide

theorem defs_PyAPI_FUNC (cfg : Config) :
    find? "PyAPI_FUNC" (includeOnce cfg).defs =
      some { params := some ["RTYPE"], body := exportAttr cfg.win32 ++ ["RTYPE"] } := by
  rcases cfg with ⟨_ | _, _ | _, _ | _⟩ <;> decide

theorem exportAttr_plain (cfg : Config) (w : Bool) :
    ∀ t ∈ exportAttr w, find? t (includeOnce cfg).defs = none := by
  intro t ht
  apply replacementToks_plain cfg t
  cases w <;> simp [exportAttr] at ht <;> simp [replacementToks] <;> tauto

theorem substitute_plain (f : List Tok → Option (List Tok)) (p : String) (T A : List Tok)
    (hA : p ∉ A) : substitute f [p] [T] A = some A := by
  induction A with
  | nil => rfl
  | cons a A ih =>
    have h1 : ¬ p = a := fun h => hA (h ▸ List.mem_cons_self _ _)
    have h2 : p ∉ A := fun h => hA (List.mem_cons_of_mem _ h)
    simp [substitute, find?, h1, ih h2]

theorem substitute_append (f : List Tok → Option (List Tok)) (p : String) (T A B : List Tok)
    (hA : p ∉ A) :
    substitute f [p] [T] (A ++ B) = (substitute f [p] [T] B).map (fun r => A ++ r) := by
  induction A with
  | nil => simp
  | cons a A ih =>
    have h1 : ¬ p = a := fun h => hA (h ▸ List.mem_cons_self _ _)
    have h2 : p ∉ A := fun h => hA (List.mem_cons_of_mem _ h)
    simp [substitute, find?, h1, ih h2, Function.comp_def]

theorem substitute_param (f : List Tok → Option (List Tok)) (p : String) (T B : List Tok) :
    substitute f [p] [T] (p :: B) =
      match f T, substitute f [p] [T] B with
      | some a, some r => some (a ++ r)
      | _, _ => none := by
  simp [substitute, find?]

theorem expand_PyAPI_FUNC (cfg : Config) (T : List Tok) (fuel : Nat) (hide : List String)
    (hh : "PyAPI_FUNC" ∉ hide) (hT : IsMacroArg T)
    (hplain : ∀ t ∈ T, find? t (includeOnce cfg).defs = none)
    (hfuel : T.length + 10 ≤ fuel) :
    expand (includeOnce cfg).defs fuel hide (invocation "PyAPI_FUNC" T) =
      some (exportAttr cfg.win32 ++ T) := by
  obtain ⟨k, rfl⟩ : ∃ k, fuel = k + 1 := ⟨fuel - 1, by omega⟩
  rw [expand_call _ _ _ _ _ _ _ (defs_PyAPI_FUNC cfg) hh hT]
  have hA : "RTYPE" ∉ exportAttr cfg.win32 := by cases cfg.win32 <;> decide
  have hlen : (exportAttr cfg.win32).length ≤ 9 := by cases cfg.win32 <;> decide
  rw [substitute_append _ _ _ _ _ hA, substitute_param,
    expand_plain _ T k hide hplain (by omega)]
  simp only [substitute, Option.map, List.append_nil]
  apply expand_plain
  · intro t ht
    rcases List.mem_append.mp ht with h | h
    · exact exportAttr_plain cfg _ t h
    · exact hplain t h
  · simp only [List.length_append]; omega

theorem defs_PyAPI_DATA (cfg : Config) :
    find? "PyAPI_DATA" (includeOnce cfg).defs =
      some { params := some ["RTYPE"],
             body := if cfg.win32 then ("extern" :: exportAttr true) ++ ["RTYPE"]
                     else ["extern", "PyAPI_FUNC", "("] ++ "RTYPE" :: [")"] } := by
  rcases cfg with ⟨_ | _, _ | _, _ | _⟩ <;> decide

theorem defs_Py_DEPRECATED (cfg : Config) :
    find? "Py_DEPRECATED" (includeOnce cfg).defs =
      some { params := some ["VERSION_UNUSED"], body := deprecatedAttr cfg.win32 } := by
  rcases cfg with ⟨_ | _, _ | _, _ | _⟩ <;> decide

theorem defs_Py_LOCAL_INLINE (cfg : Config) :
    find? "Py_LOCAL_INLINE" (includeOnce cfg).defs =
      some { params := some ["type"],
             body := ["static", inlineKeyword cfg.win32] ++ "type" :: inlineSuffix cfg.win32 } := by
  rcases cfg with ⟨_ | _, _ | _, _ | _⟩ <;> decide

theorem expand_cons_plain (env : List (String × MacroDef)) (t : Tok) (rest : List Tok)
    (fuel : Nat) (hide : List String) (ht : find? t env = none) :
    expand env (fuel + 1) hide (t :: rest) =
      (expand env fuel hide rest).map (fun r => t :: r) := by
  simp [expand, ht]

theorem expand_PyAPI_DATA (cfg : Config) (T : List Tok) (fuel : Nat)
    (hT : IsMacroArg T) (hplain : ∀ t ∈ T, find? t (includeOnce cfg).defs = none)
    (hfuel : T.length + 12 ≤ fuel) :
    expand (includeOnce cfg).defs fuel [] (invocation "PyAPI_DATA" T) =
      some ("extern" :: (exportAttr cfg.win32 ++ T)) := by
  obtain ⟨k, rfl⟩ : ∃ k, fuel = k + 2 := ⟨fuel - 2, by omega⟩
  have hext : find? "extern" (includeOnce cfg).defs = none :=
    replacementToks_plain cfg "extern" (by decide)
  rw [expand_call _ _ _ _ _ _ _ (defs_PyAPI_DATA cfg) (by simp) hT]
  cases hw : cfg.win32 with
  | true =>
    simp only [if_true]
    rw [substitute_append _ _ _ _ _ (by decide), substitute_param,
      expand_plain _ T (k + 1) [] hplain (by omega)]
    simp only [substitute, Option.map, List.append_nil]
    apply expand_plain
    · intro t ht
      rcases List.mem_append.mp ht with h | h
      · rcases List.mem_cons.mp h with h | h
        · exact h ▸ hext
        · exact exportAttr_plain cfg _ t h
      · exact hplain t h
    · simp [exportAttr]; omega
  | false =>
    simp only [Bool.false_eq_true, if_false]
    rw [substitute_append _ _ _ _ _ (by decide), substitute_param,
      expand_plain _ T (k + 1) [] hplain (by omega),
      substitute_plain _ _ _ _ (by decide)]
    simp only [Option.map, List.cons_append, List.nil_append]
    have hcall := expand_PyAPI_FUNC cfg T k ["PyAPI_DATA"] (by decide) hT hplain (by omega)
    rw [hw] at hcall
    rw [expand_cons_plain _ _ _ _ _ hext]
    simp only [invocation] at hcall
    rw [hcall]
    rfl

theorem expand_Py_DEPRECATED (cfg : Config) (V : List Tok) (fuel : Nat)
    (hV : IsMacroArg V) (hfuel : 7 ≤ fuel) :
    expand (includeOnce cfg).defs fuel [] (invocation "Py_DEPRECATED" V) =
      some (deprecatedAttr cfg.win32) := by
  obtain ⟨k, rfl⟩ : ∃ k, fuel = k + 1 := ⟨fuel - 1, by omega⟩
  rw [expand_call _ _ _ _ _ _ _ (defs_Py_DEPRECATED cfg) (by simp) hV]
  rw [substitute_plain _ _ _ _ (by cases cfg.win32 <;> decide)]
  apply expand_plain
  · intro t ht
    apply replacementToks_plain cfg t
    cases hw : cfg.win32 <;> rw [hw] at ht <;> simp [deprecatedAttr] at ht
    simp [replacementToks]; tauto
  · have : (deprecatedAttr cfg.win32).length ≤ 6 := by cases cfg.win32 <;> decide
    omega

theorem expand_Py_LOCAL_INLINE (cfg : Config) (T : List Tok) (fuel : Nat)
    (hT : IsMacroArg T) (hplain : ∀ t ∈ T, find? t (includeOnce cfg).defs = none)
    (hfuel : T.length + 4 ≤ fuel) :
    expand (includeOnce cfg).defs fuel [] (invocation "Py_LOCAL_INLINE" T) =
      some (["static", inlineKeyword cfg.win32] ++ T ++ inlineSuffix cfg.win32) := by
  obtain ⟨k, rfl⟩ : ∃ k, fuel = k + 1 := ⟨fuel - 1, by omega⟩
  rw [expand_call _ _ _ _ _ _ _ (defs_Py_LOCAL_INLINE cfg) (by simp) hT]
  rw [substitute_append _ _ _ _ _ (by cases cfg.win32 <;> decide), substitute_param,
    expand_plain _ T k [] hplain (by omega),
    substitute_plain _ _ _ _ (by cases cfg.win32 <;> decide)]
  simp only [Option.map]
  rw [← List.append_assoc]
  apply expand_plain
  · intro t ht
    have hfix : ∀ u, u ∈ ["static", inlineKeyword cfg.win32] ∨ u ∈ inlineSuffix cfg.win32 →
        u ∈ replacementToks := by
      intro u hu
      cases hw : cfg.win32 <;> rw [hw] at hu <;>
        simp [inlineKeyword, inlineSuffix] at hu <;> simp [replacementToks] <;> tauto
    rcases List.mem_append.mp ht with h | h
    · rcases List.mem_append.mp h with h | h
      · exact replacementToks_plain cfg t (hfix t (Or.inl h))
      · exact hplain t h
    · exact replacementToks_plain cfg t (hfix t (Or.inr h))
  · have : (inlineSuffix cfg.win32).length ≤ 1 := by cases cfg.win32 <;> decide
    simp only [List.length_append, List.length_cons, List.length_nil]; omega

/-! ## The header with its system headers followed -/

theorem includeOnceWith_plain (cfg : Config) :
    includeOnceWith SysHeaders.plain cfg = includeOnce cfg := by
  rcases cfg with ⟨_ | _, _ | _, _ | _⟩ <;> decide

/-- One step of `expand` at an invocation `NAME(A)` of a one-parameter
definition that is followed by more tokens. -/
theorem expand_call_rest (env : List (String × MacroDef)) (name p : String)
    (body A rest : List Tok) (fuel : Nat) (hide : List String)
    (hdef : find? name env = some { params := some [p], body := body })
    (hh : name ∉ hide) (hA : IsMacroArg A) :
    expand env (fuel + 1) hide (name :: "(" :: (A ++ ")" :: rest)) =
      match substitute (expand env fuel hide) [p] [A] body with
      | none => none
      | some b =>
        match expand env fuel (name :: hide) b, expand env fuel hide rest with
        | some out, some tail => some (out ++ tail)
        | _, _ => none := by
  have hp : parseArgs 0 [] [] (A ++ ")" :: rest) = some ([A], rest) := parseArgs_arg A rest hA
  simp only [expand, hh, if_false, hdef, if_true]
  rw [hp]
  have hne : ¬ ([p] = [] ∧ [A] = [[]]) := by simp
  simp only [hne, if_false, List.length_singleton, if_true]

/-- An invocation of a definition with an empty replacement list vanishes. -/
theorem expand_erased (env : List (String × MacroDef)) (name p : String)
    (A rest : List Tok) (fuel : Nat) (hide : List String)
    (hdef : find? name env = some { params := some [p], body := [] })
    (hh : name ∉ hide) (hA : IsMacroArg A) :
    expand env (fuel + 1) hide (name :: "(" :: (A ++ ")" :: rest)) =
      expand env fuel hide rest := by
  rw [expand_call_rest env name p [] A rest fuel hide hdef hh hA]
  simp only [substitute, expand_nil]
  cases expand env fuel hide rest <;> simp

theorem with_defs_PyAPI_FUNC (sys : SysHeaders) (cfg : Config) :
    find? "PyAPI_FUNC" (includeOnceWith sys cfg).defs =
      some { params := some ["RTYPE"], body := exportAttr cfg.win32 ++ ["RTYPE"] } := by
  rcases cfg with ⟨_ | _, _ | _, _ | _⟩ <;> cases sys <;> decide

theorem with_defs_PyAPI_DATA (sys : SysHeaders) (cfg : Config) :
    find? "PyAPI_DATA" (includeOnceWith sys cfg).defs =
      some { params := some ["RTYPE"],
             body := if cfg.win32 then ("extern" :: exportAttr true) ++ ["RTYPE"]
                     else ["extern", "PyAPI_FUNC", "("] ++ "RTYPE" :: [")"] } := by
  rcases cfg with ⟨_ | _, _ | _, _ | _⟩ <;> cases sys <;> decide

theorem with_defs_Py_DEPRECATED (sys : SysHeaders) (cfg : Config) :
    find? "Py_DEPRECATED" (includeOnceWith sys cfg).defs =
      some { params := some ["VERSION_UNUSED"], body := deprecatedAttr cfg.win32 } := by
  rcases cfg with ⟨_ | _, _ | _, _ | _⟩ <;> cases sys <;> decide

theorem with_defs_attribute (sys : SysHeaders) (cfg : Config) :
    find? "__attribute__" (includeOnceWith sys cfg).defs =
      if attributeErased sys cfg then some { params := some ["xyz"], body := [] }
      else none := by
  rcases cfg with ⟨_ | _, _ | _, _ | _⟩ <;> cases sys <;> decide

theorem with_replacementToks_plain (sys : SysHeaders) (cfg : Config) :
    ∀ t ∈ replacementToks, t ≠ "__attribute__" →
      find? t (includeOnceWith sys cfg).defs = none := by
  rcases cfg with ⟨_ | _, _ | _, _ | _⟩ <;> cases sys <;> decide

theorem attributeErased_iff (sys : SysHeaders) (cfg : Config) :
    attributeErased sys cfg = true ↔ (sys = SysHeaders.glibc ∧ cfg.gnuc = false) := by
  cases sys <;> cases h : cfg.gnuc <;> simp [attributeErased, h]

theorem with_attribute_plain (sys : SysHeaders) (cfg : Config)
    (he : attributeErased sys cfg = false) :
    ∀ t ∈ replacementToks, find? t (includeOnceWith sys cfg).defs = none := by
  intro t ht
  by_cases h : t = "__attribute__"
  · rw [h, with_defs_attribute, he]; rfl
  · exact with_replacementToks_plain sys cfg t ht h

theorem with_attribute_erased (sys : SysHeaders) (cfg : Config)
    (he : attributeErased sys cfg = true) :
    find? "__attribute__" (includeOnceWith sys cfg).defs =
      some { params := some ["xyz"], body := [] } := by
  rw [with_defs_attribute, he]; rfl

theorem exportAttr_true_toks :
    ∀ t ∈ exportAttr true, t ∈ replacementToks ∧ t ≠ "__attribute__" := by
  decide

theorem exportAttr_false_toks : ∀ t ∈ exportAttr false, t ∈ replacementToks := by
  decide

theorem deprecatedAttr_false_toks : ∀ t ∈ deprecatedAttr false, t ∈ replacementToks := by
  decide

theorem expand_PyAPI_FUNC_with (sys : SysHeaders) (cfg : Config) (T : List Tok) (fuel : Nat)
    (hide : List String) (hh : "PyAPI_FUNC" ∉ hide) (hha : "__attribute__" ∉ hide)
    (hT : IsMacroArg T) (hplain : ∀ t ∈ T, find? t (includeOnceWith sys cfg).defs = none)
    (hfuel : T.length + 10 ≤ fuel) :
    expand (includeOnceWith sys cfg).defs fuel hide (invocation "PyAPI_FUNC" T) =
      some (exportAnnot sys cfg ++ T) := by
  obtain ⟨k, rfl⟩ : ∃ k, fuel = k + 2 := ⟨fuel - 2, by omega⟩
  rw [expand_call _ _ _ _ _ _ _ (with_defs_PyAPI_FUNC sys cfg) hh hT]
  have hA : "RTYPE" ∉ exportAttr cfg.win32 := by cases cfg.win32 <;> decide
  rw [substitute_append _ _ _ _ _ hA, substitute_param,
    expand_plain _ T (k + 1) hide hplain (by omega)]
  simp only [substitute, Option.map, List.append_nil]
  cases hw : cfg.win32 with
  | true =>
    have hann : exportAnnot sys cfg = exportAttr true := by simp [exportAnnot, exportAttr, hw]
    rw [hann]
    apply expand_plain
    · intro t ht
      rcases List.mem_append.mp ht with h | h
      · exact with_replacementToks_plain sys cfg t (exportAttr_true_toks t h).1
          (exportAttr_true_toks t h).2
      · exact hplain t h
    · have : (exportAttr true).length = 4 := rfl
      rw [List.length_append]; omega
  | false =>
    cases he : attributeErased sys cfg with
    | false =>
      have hann : exportAnnot sys cfg = exportAttr false := by
        simp [exportAnnot, exportAttr, hw, he]
      rw [hann]
      apply expand_plain
      · intro t ht
        rcases List.mem_append.mp ht with h | h
        · exact with_attribute_plain sys cfg he t (exportAttr_false_toks t h)
        · exact hplain t h
      · have : (exportAttr false).length = 9 := rfl
        rw [List.length_append]; omega
    | true =>
      have hann : exportAnnot sys cfg = [] := by simp [exportAnnot, hw, he]
      have hshape : exportAttr false ++ T =
          "__attribute__" :: "(" ::
            (["(", "visibility", "(", "\"default\"", ")", ")"] ++ ")" :: T) := rfl
      rw [hann, hshape,
        expand_erased _ _ _ _ _ _ _ (with_attribute_erased sys cfg he)
          (by simp [hha]) (by decide)]
      exact expand_plain _ T k ("PyAPI_FUNC" :: hide) hplain (by omega)

theorem expand_PyAPI_DATA_with (sys : SysHeaders) (cfg : Config) (T : List Tok) (fuel : Nat)
    (hT : IsMacroArg T) (hplain : ∀ t ∈ T, find? t (includeOnceWith sys cfg).defs = none)
    (hfuel : T.length + 12 ≤ fuel) :
    expand (includeOnceWith sys cfg).defs fuel [] (invocation "PyAPI_DATA" T) =
      some ("extern" :: (exportAnnot sys cfg ++ T)) := by
  obtain ⟨k, rfl⟩ : ∃ k, fuel = k + 2 := ⟨fuel - 2, by omega⟩
  have hext : find? "extern" (includeOnceWith sys cfg).defs = none :=
    with_replacementToks_plain sys cfg "extern" (by decide) (by decide)
  rw [expand_call _ _ _ _ _ _ _ (with_defs_PyAPI_DATA sys cfg) (by simp) hT]
  cases hw : cfg.win32 with
  | true =>
    have hann : exportAnnot sys cfg = exportAttr true := by simp [exportAnnot, exportAttr, hw]
    simp only [if_true]
    rw [hann, substitute_append _ _ _ _ _ (by decide), substitute_param,
      expand_plain _ T (k + 1) [] hplain (by omega)]
    simp only [substitute, Option.map, List.append_nil]
    apply expand_plain
    · intro t ht
      rcases List.mem_append.mp ht with h | h
      · rcases List.mem_cons.mp h with h | h
        · rw [h]; exact hext
        · exact with_replacementToks_plain sys cfg t (exportAttr_true_toks t h).1
            (exportAttr_true_toks t h).2
      · exact hplain t h
    · have : (exportAttr true).length = 4 := rfl
      rw [List.length_append, List.length_cons]; omega
  | false =>
    simp only [Bool.false_eq_true, if_false]
    rw [substitute_append _ _ _ _ _ (by decide), substitute_param,
      expand_plain _ T (k + 1) [] hplain (by omega),
      substitute_plain _ _ _ _ (by decide)]
    simp only [Option.map, List.cons_append, List.nil_append]
    have hcall := expand_PyAPI_FUNC_with sys cfg T k ["PyAPI_DATA"] (by decide) (by decide)
      hT hplain (by omega)
    rw [expand_cons_plain _ _ _ _ _ hext]
    simp only [invocation] at hcall
    rw [hcall]
    rfl

theorem expand_Py_DEPRECATED_with (sys : SysHeaders) (cfg : Config) (V : List Tok)
    (fuel : Nat) (hV : IsMacroArg V) (hfuel : 7 ≤ fuel) :
    expand (includeOnceWith sys cfg).defs fuel [] (invocation "Py_DEPRECATED" V) =
      some (deprecatedAnnot sys cfg) := by
  obtain ⟨k, rfl⟩ : ∃ k, fuel = k + 2 := ⟨fuel - 2, by omega⟩
  rw [expand_call _ _ _ _ _ _ _ (with_defs_Py_DEPRECATED sys cfg) (by simp) hV]
  rw [substitute_plain _ _ _ _ (by cases cfg.win32 <;> decide)]
  simp only
  cases hw : cfg.win32 with
  | true =>
    have hann : deprecatedAnnot sys cfg = [] := by simp [deprecatedAnnot, hw]
    rw [hann]
    exact expand_nil _ _ _
  | false =>
    cases he : attributeErased sys cfg with
    | false =>
      have hann : deprecatedAnnot sys cfg = deprecatedAttr false := by
        simp [deprecatedAnnot, deprecatedAttr, hw, he]
      rw [hann]
      apply expand_plain
      · intro t ht
        exact with_attribute_plain sys cfg he t (deprecatedAttr_false_toks t ht)
      · have : (deprecatedAttr false).length = 6 := rfl
        omega
    | true =>
      have hann : deprecatedAnnot sys cfg = [] := by simp [deprecatedAnnot, hw, he]
      have hshape : deprecatedAttr false =
          "__attribute__" :: "(" :: (["(", "__deprecated__", ")"] ++ ")" :: []) := rfl
      rw [hann, hshape,
        expand_erased _ _ _ _ _ _ _ (with_attribute_erased sys cfg he) (by simp) (by decide)]
      exact expand_nil _ _ _

/-- With the system headers followed as well, `PyAPI_DATA(T)` is `extern` then
`PyAPI_FUNC(T)`, and neither annotation adds a calling-convention qualifier. -/
theorem annotations_with_system_headers (sys : SysHeaders) (cfg : Config) (V T : List Tok)
    (fuel : Nat) (hV : IsMacroArg V) (hT : IsMacroArg T)
    (hplain : ∀ t ∈ T, find? t (includeOnceWith sys cfg).defs = none)
    (hfuel : T.length + 12 ≤ fuel) :
    ∃ dep ts,
      expand (includeOnceWith sys cfg).defs fuel [] (invocation "Py_DEPRECATED" V) = some dep ∧
      expand (includeOnceWith sys cfg).defs fuel [] (invocation "PyAPI_FUNC" T) = some ts ∧
      expand (includeOnceWith sys cfg).defs fuel [] (invocation "PyAPI_DATA" T) =
        some ("extern" :: ts) ∧
      (∀ t ∈ dep, isCallConv t = false) ∧
      ts.filter isCallConv = T.filter isCallConv := by
  refine ⟨_, _, expand_Py_DEPRECATED_with sys cfg V fuel hV (by omega),
    expand_PyAPI_FUNC_with sys cfg T fuel [] (by simp) (by simp) hT hplain (by omega),
    expand_PyAPI_DATA_with sys cfg T fuel hT hplain hfuel, ?_, ?_⟩
  · rcases cfg with ⟨_ | _, _ | _, _ | _⟩ <;> cases sys <;> decide
  · have hnone : (exportAnnot sys cfg).filter isCallConv = [] := by
      rcases cfg with ⟨_ | _, _ | _, _ | _⟩ <;> cases sys <;> decide
    rw [List.filter_append, hnone, List.nil_append]

/-! ## The claims -/

/-- C2: in every configuration of `__GNUC__`, `_WIN32` and `_WIN64` the header binds
`Py_ssize_t` to `long long` when `_WIN64` is defined and to `long` otherwise; the
bound type is a function of `_WIN64` alone. -/
theorem Py_ssize_t_binding (cfg : Config) :
    ssizeType cfg = some (if cfg.win64 then ["long", "long"] else ["long"]) := by
  rcases cfg with ⟨_ | _, _ | _, _ | _⟩ <;> decide

/-- C1: for each of the data models ILP32, LP64 and LLP64, with `_WIN64` defined
exactly when the model is LLP64, the type bound to `Py_ssize_t` is as wide as a
pointer. -/
theorem Py_ssize_t_width_eq_pointer_width (dm : DataModel) (cfg : Config)
    (h : cfg.win64 = true ↔ dm = DataModel.LLP64) :
    (ssizeType cfg).bind (typeBits dm) = some dm.pointerBits := by
  rcases cfg with ⟨_ | _, _ | _, _ | _⟩ <;> cases dm <;> simp at h <;> decide

/-- Instance of the width property at 64-bit Windows (LLP64, `_WIN64` defined). -/
theorem Py_ssize_t_width_eq_pointer_width_witness :
    (({ gnuc := false, win32 := true, win64 := true } : Config).win64 = true ↔
        DataModel.LLP64 = DataModel.LLP64) ∧
      (ssizeType { gnuc := false, win32 := true, win64 := true }).bind
        (typeBits DataModel.LLP64) = some 64 :=
  ⟨by decide, Py_ssize_t_width_eq_pointer_width DataModel.LLP64
    { gnuc := false, win32 := true, win64 := true } (by decide)⟩

/-- C3, as stated, fails: with the system headers of glibc and a compiler that
does not define `__GNUC__`, on a target without `_WIN32`, `PyAPI_FUNC(PyObject *)`
expands to `PyObject *` alone and `PyAPI_DATA(PyObject *)` to `extern PyObject *`:
`sys/types.h`, included by the header's line 3, has defined `__attribute__`
away, so the annotation is not the visibility attribute. -/
theorem PyAPI_FUNC_visibility_counterexample :
    expand (includeOnceWith SysHeaders.glibc { gnuc := false, win32 := false, win64 := false }).defs
        14 [] (invocation "PyAPI_FUNC" ["PyObject", "*"]) = some ["PyObject", "*"] ∧
      expand (includeOnceWith SysHeaders.glibc { gnuc := false, win32 := false, win64 := false }).defs
        14 [] (invocation "PyAPI_DATA" ["PyObject", "*"]) = some ["extern", "PyObject", "*"] := by
  decide

/-- C3, amended: for a type `T` (a single argument free of defined names) and
every configuration, the replacement lists bound to `PyAPI_FUNC` and
`PyAPI_DATA` are chosen by `_WIN32` alone, and `PyAPI_FUNC(T)` expands to
annotation tokens followed by `T`, `PyAPI_DATA(T)` to `extern`, the same
annotation, then `T`.  The annotation is `__declspec(dllimport)` when `_WIN32` is
defined, and `__attribute__((visibility("default")))` when `_WIN32` is not
defined and `__GNUC__` is.  When neither is defined it is that attribute where
the system headers leave `__attribute__` alone, and empty where they define it
away (glibc). -/
theorem PyAPI_FUNC_DATA_expansion (sys : SysHeaders) (cfg : Config) (T : List Tok)
    (fuel : Nat) (hT : IsMacroArg T)
    (hplain : ∀ t ∈ T, find? t (includeOnceWith sys cfg).defs = none)
    (hfuel : T.length + 12 ≤ fuel) :
    find? "PyAPI_FUNC" (includeOnceWith sys cfg).defs =
        some { params := some ["RTYPE"],
               body := if cfg.win32 then ["__declspec", "(", "dllimport", ")", "RTYPE"]
                       else ["__attribute__", "(", "(", "visibility", "(", "\"default\"", ")",
                             ")", ")", "RTYPE"] } ∧
      find? "PyAPI_DATA" (includeOnceWith sys cfg).defs =
        some { params := some ["RTYPE"],
               body := if cfg.win32 then ["extern", "__declspec", "(", "dllimport", ")", "RTYPE"]
                       else ["extern", "PyAPI_FUNC", "(", "RTYPE", ")"] } ∧
      expand (includeOnceWith sys cfg).defs fuel [] (invocation "PyAPI_FUNC" T) =
        some ((if cfg.win32 then ["__declspec", "(", "dllimport", ")"]
               else if sys = SysHeaders.glibc ∧ cfg.gnuc = false then []
               else ["__attribute__", "(", "(", "visibility", "(", "\"default\"", ")", ")", ")"])
              ++ T) ∧
      expand (includeOnceWith sys cfg).defs fuel [] (invocation "PyAPI_DATA" T) =
        some ("extern" ::
          ((if cfg.win32 then ["__declspec", "(", "dllimport", ")"]
            else if sys = SysHeaders.glibc ∧ cfg.gnuc = false then []
            else ["__attribute__", "(", "(", "visibility", "(", "\"default\"", ")", ")", ")"])
           ++ T)) := by
  have hF := expand_PyAPI_FUNC_with sys cfg T fuel [] (by simp) (by simp) hT hplain (by omega)
  have hD := expand_PyAPI_DATA_with sys cfg T fuel hT hplain hfuel
  have hann : exportAnnot sys cfg =
      (if cfg.win32 then ["__declspec", "(", "dllimport", ")"]
       else if sys = SysHeaders.glibc ∧ cfg.gnuc = false then []
       else ["__attribute__", "(", "(", "visibility", "(", "\"default\"", ")", ")", ")"]) := by
    simp only [exportAnnot, attributeErased_iff]
  rw [hann] at hF hD
  refine ⟨?_, ?_, hF, hD⟩
  · rw [with_defs_PyAPI_FUNC]; cases cfg.win32 <;> rfl
  · rw [with_defs_PyAPI_DATA]; cases cfg.win32 <;> rfl

/-- Instances of the export expansions at `T = PyObject *` with the system headers
of glibc: with a GNU compiler the attribute stays, on Windows the import marker. -/
theorem PyAPI_FUNC_DATA_expansion_witness :
    IsMacroArg ["PyObject", "*"] ∧
      expand (includeOnceWith SysHeaders.glibc { gnuc := true, win32 := false, win64 := false }).defs
          14 [] (invocation "PyAPI_FUNC" ["PyObject", "*"]) =
        some ["__attribute__", "(", "(", "visibility", "(", "\"default\"", ")", ")", ")",
              "PyObject", "*"] ∧
      expand (includeOnceWith SysHeaders.glibc { gnuc := true, win32 := false, win64 := false }).defs
          14 [] (invocation "PyAPI_DATA" ["PyObject", "*"]) =
        some ["extern", "__attribute__", "(", "(", "visibility", "(", "\"default\"", ")", ")",
              ")", "PyObject", "*"] ∧
      expand (includeOnceWith SysHeaders.plain { gnuc := false, win32 := true, win64 := true }).defs
          14 [] (invocation "PyAPI_DATA" ["PyObject", "*"]) =
        some ["extern", "__declspec", "(", "dllimport", ")", "PyObject", "*"] :=
  ⟨by decide,
   (PyAPI_FUNC_DATA_expansion SysHeaders.glibc { gnuc := true, win32 := false, win64 := false }
      ["PyObject", "*"] 14 (by decide) (by decide) (by decide)).2.2.1,
   (PyAPI_FUNC_DATA_expansion SysHeaders.glibc { gnuc := true, win32 := false, win64 := false }
      ["PyObject", "*"] 14 (by decide) (by decide) (by decide)).2.2.2,
   (PyAPI_FUNC_DATA_expansion SysHeaders.plain { gnuc := false, win32 := true, win64 := true }
      ["PyObject", "*"] 14 (by decide) (by decide) (by decide)).2.2.2⟩

/-- C4: for a type `T` and in both branches on `_WIN32`, the full expansion of
`PyAPI_DATA(T)` is the token `extern` followed by the full expansion of
`PyAPI_FUNC(T)`. -/
theorem PyAPI_DATA_is_PyAPI_FUNC_with_linkage (cfg : Config) (T : List Tok) (fuel : Nat)
    (hT : IsMacroArg T) (hplain : ∀ t ∈ T, find? t (includeOnce cfg).defs = none)
    (hfuel : T.length + 12 ≤ fuel) :
    ∃ ts, expand (includeOnce cfg).defs fuel [] (invocation "PyAPI_FUNC" T) = some ts ∧
      expand (includeOnce cfg).defs fuel [] (invocation "PyAPI_DATA" T) = some ("extern" :: ts) :=
  ⟨exportAttr cfg.win32 ++ T, expand_PyAPI_FUNC cfg T fuel [] (by simp) hT hplain (by omega),
   expand_PyAPI_DATA cfg T fuel hT hplain hfuel⟩

/-- Instance of the data/function relation at `T = int` on 64-bit Windows. -/
theorem PyAPI_DATA_is_PyAPI_FUNC_with_linkage_witness :
    IsMacroArg ["int"] ∧
      ∃ ts, expand (includeOnce { gnuc := false, win32 := true, win64 := true }).defs 13 []
          (invocation "PyAPI_FUNC" ["int"]) = some ts ∧
        expand (includeOnce { gnuc := false, win32 := true, win64 := true }).defs 13 []
          (invocation "PyAPI_DATA" ["int"]) = some ("extern" :: ts) :=
  ⟨by decide, PyAPI_DATA_is_PyAPI_FUNC_with_linkage
    { gnuc := false, win32 := true, win64 := true } ["int"] 13 (by decide) (by decide)
    (by decide)⟩

/-- C5, as stated, fails: with a GNU-compatible compiler targeting Windows
(`__GNUC__` and `_WIN32` both defined) `Py_DEPRECATED(3.3)` expands to nothing,
not to the attribute, whatever the system headers. -/
theorem Py_DEPRECATED_by_gnuc_counterexample :
    expand (includeOnceWith SysHeaders.plain { gnuc := true, win32 := true, win64 := false }).defs
        8 [] (invocation "Py_DEPRECATED" ["3.3"]) = some [] ∧
      expand (includeOnceWith SysHeaders.glibc { gnuc := true, win32 := true, win64 := false }).defs
        8 [] (invocation "Py_DEPRECATED" ["3.3"]) = some [] := by
  decide

/-- C5, amended: for every argument `V` and every configuration, the expansion
of `Py_DEPRECATED(V)` does not depend on `V`; it is the empty token sequence
whenever `_WIN32` is defined (also with `__GNUC__` defined), and
`__attribute__((__deprecated__))` when `__GNUC__` is defined and `_WIN32` is
not.  When neither is defined the replacement list is still the attribute, and
the expansion is empty where the system headers define `__attribute__` away
(glibc) and the attribute where they leave it alone. -/
theorem Py_DEPRECATED_expansion (sys : SysHeaders) (cfg : Config) (V : List Tok)
    (fuel : Nat) (hV : IsMacroArg V) (hfuel : 7 ≤ fuel) :
    find? "Py_DEPRECATED" (includeOnceWith sys cfg).defs =
        some { params := some ["VERSION_UNUSED"],
               body := if cfg.win32 then []
                       else ["__attribute__", "(", "(", "__deprecated__", ")", ")"] } ∧
      expand (includeOnceWith sys cfg).defs fuel [] (invocation "Py_DEPRECATED" V) =
        some (if cfg.win32 then []
              else if sys = SysHeaders.glibc ∧ cfg.gnuc = false then []
              else ["__attribute__", "(", "(", "__deprecated__", ")", ")"]) := by
  have h := expand_Py_DEPRECATED_with sys cfg V fuel hV hfuel
  simp only [deprecatedAnnot, attributeErased_iff] at h
  refine ⟨?_, h⟩
  rw [with_defs_Py_DEPRECATED]; cases cfg.win32 <;> rfl

/-- Instances of the deprecation expansion at `V = 3.3` with the system headers
of glibc, on a target without `_WIN32`: the attribute with a GNU compiler,
nothing with a compiler that does not define `__GNUC__`. -/
theorem Py_DEPRECATED_expansion_witness :
    IsMacroArg ["3.3"] ∧
      expand (includeOnceWith SysHeaders.glibc { gnuc := true, win32 := false, win64 := false }).defs
        7 [] (invocation "Py_DEPRECATED" ["3.3"]) =
          some ["__attribute__", "(", "(", "__deprecated__", ")", ")"] ∧
      expand (includeOnceWith SysHeaders.glibc { gnuc := false, win32 := false, win64 := false }).defs
        7 [] (invocation "Py_DEPRECATED" ["3.3"]) = some [] :=
  ⟨by decide,
   (Py_DEPRECATED_expansion SysHeaders.glibc { gnuc := true, win32 := false, win64 := false }
      ["3.3"] 7 (by decide) (by decide)).2,
   (Py_DEPRECATED_expansion SysHeaders.glibc { gnuc := false, win32 := false, win64 := false }
      ["3.3"] 7 (by decide) (by decide)).2⟩

/-- C6: for a type `T` (a single argument free of defined names) and every
configuration, `Py_LOCAL_INLINE(T)` expands to `static`, an inline keyword
(`inline`, or `__inline` under `_WIN32`), then `T`, followed by `__fastcall`
exactly when `_WIN32` is defined; when `_WIN32` is not defined the expansion holds
no calling-convention qualifier beyond those of `T` itself. -/
theorem Py_LOCAL_INLINE_expansion (cfg : Config) (T : List Tok) (fuel : Nat)
    (hT : IsMacroArg T) (hplain : ∀ t ∈ T, find? t (includeOnce cfg).defs = none)
    (hfuel : T.length + 4 ≤ fuel) :
    expand (includeOnce cfg).defs fuel [] (invocation "Py_LOCAL_INLINE" T) =
        some (["static", if cfg.win32 then "__inline" else "inline"] ++ T ++
              (if cfg.win32 then ["__fastcall"] else [])) ∧
      (cfg.win32 = false →
        ∃ ts, expand (includeOnce cfg).defs fuel [] (invocation "Py_LOCAL_INLINE" T) = some ts ∧
          ts.filter isCallConv = T.filter isCallConv) := by
  have h := expand_Py_LOCAL_INLINE cfg T fuel hT hplain hfuel
  refine ⟨h, fun hw => ⟨_, h, ?_⟩⟩
  rw [hw]
  simp [inlineKeyword, inlineSuffix, List.filter_cons, isCallConv, callConvQualifiers]

/-- Instances of the local-inline expansion at `T = int`, one in each branch. -/
theorem Py_LOCAL_INLINE_expansion_witness :
    IsMacroArg ["int"] ∧
      expand (includeOnce { gnuc := false, win32 := true, win64 := true }).defs 5 []
        (invocation "Py_LOCAL_INLINE" ["int"]) =
          some ["static", "__inline", "int", "__fastcall"] ∧
      expand (includeOnce { gnuc := true, win32 := false, win64 := false }).defs 5 []
        (invocation "Py_LOCAL_INLINE" ["int"]) = some ["static", "inline", "int"] :=
  ⟨by decide,
   (Py_LOCAL_INLINE_expansion { gnuc := false, win32 := true, win64 := true } ["int"] 5
      (by decide) (by decide) (by decide)).1,
   (Py_LOCAL_INLINE_expansion { gnuc := true, win32 := false, win64 := false } ["int"] 5
      (by decide) (by decide) (by decide)).1⟩

/-- C7: in every configuration, processing the header a second time right after
the first raises no diagnostic: each `#define` and `typedef` is executed again
and re-binds its name to what it is already bound to, and the definitions and
type aliases after two inclusions are those after one. -/
theorem include_twice_idempotent (cfg : Config) :
    (includeOnce cfg).errors = [] ∧ (includeTwice cfg).errors = [] ∧
      (includeTwice cfg).defs = (includeOnce cfg).defs ∧
      (includeTwice cfg).typedefs = (includeOnce cfg).typedefs ∧
      (includeTwice cfg).introduced =
        (includeOnce cfg).introduced ++ (includeOnce cfg).introduced := by
  rcases cfg with ⟨_ | _, _ | _, _ | _⟩ <;> decide

/-- C8, as stated, fails: with `__GNUC__` defined the header also defines
`_GNU_SOURCE`, which is not one of the seven names. -/
theorem introduced_names_counterexample :
    "_GNU_SOURCE" ∈ (includeOnce { gnuc := true, win32 := false, win64 := false }).introduced ∧
      "_GNU_SOURCE" ∉ surfaceNames := by
  decide

/-- C8, amended: in every configuration the names the header defines are, in
order and each defined once, `_GNU_SOURCE` (exactly when `__GNUC__` is defined),
`Py_DEPRECATED`, `PyAPI_FUNC`, `PyAPI_DATA`, `Py_LOCAL_INLINE`, `PyObject`,
`Py_ssize_t` and `WITH_THREAD`, and no other name. -/
theorem introduced_names (cfg : Config) :
    (includeOnce cfg).introduced =
      (if cfg.gnuc then ["_GNU_SOURCE"] else []) ++
        ["Py_DEPRECATED", "PyAPI_FUNC", "PyAPI_DATA", "Py_LOCAL_INLINE", "PyObject",
         "Py_ssize_t", "WITH_THREAD"] := by
  rcases cfg with ⟨_ | _, _ | _, _ | _⟩ <;> decide

/-- C9: in every configuration the expansion of `Py_DEPRECATED` holds no
calling-convention qualifier, and the expansions of `PyAPI_FUNC(T)` and
`PyAPI_DATA(T)` hold exactly the calling-convention qualifiers of `T`, so the
annotations add none (in particular when `_WIN32` is not defined). -/
theorem annotations_add_no_calling_convention (cfg : Config) (V T : List Tok) (fuel : Nat)
    (hV : IsMacroArg V) (hT : IsMacroArg T)
    (hplain : ∀ t ∈ T, find? t (includeOnce cfg).defs = none)
    (hfuel : T.length + 12 ≤ fuel) :
    (∃ ts, expand (includeOnce cfg).defs fuel [] (invocation "Py_DEPRECATED" V) = some ts ∧
        ∀ t ∈ ts, isCallConv t = false) ∧
      (∃ ts, expand (includeOnce cfg).defs fuel [] (invocation "PyAPI_FUNC" T) = some ts ∧
        ts.filter isCallConv = T.filter isCallConv) ∧
      (∃ ts, expand (includeOnce cfg).defs fuel [] (invocation "PyAPI_DATA" T) = some ts ∧
        ts.filter isCallConv = T.filter isCallConv) := by
  refine ⟨⟨_, expand_Py_DEPRECATED cfg V fuel hV (by omega), ?_⟩,
    ⟨_, expand_PyAPI_FUNC cfg T fuel [] (by simp) hT hplain (by omega), ?_⟩,
    ⟨_, expand_PyAPI_DATA cfg T fuel hT hplain hfuel, ?_⟩⟩
  · cases cfg.win32 <;> decide
  · cases cfg.win32 <;>
      simp [exportAttr, List.filter_cons, isCallConv, callConvQualifiers]
  · cases cfg.win32 <;>
      simp [exportAttr, List.filter_cons, isCallConv, callConvQualifiers]

/-- Instance at `T = int __stdcall` on a non-Windows GNU target: the only qualifier in
the expansions is the one of `T`. -/
theorem annotations_add_no_calling_convention_witness :
    IsMacroArg ["2.7"] ∧ IsMacroArg ["int", "__stdcall"] ∧
      (∃ ts, expand (includeOnce { gnuc := true, win32 := false, win64 := false }).defs 14 []
          (invocation "Py_DEPRECATED" ["2.7"]) = some ts ∧ ∀ t ∈ ts, isCallConv t = false) ∧
      (∃ ts, expand (includeOnce { gnuc := true, win32 := false, win64 := false }).defs 14 []
          (invocation "PyAPI_FUNC" ["int", "__stdcall"]) = some ts ∧
        ts.filter isCallConv = ["__stdcall"]) ∧
      (∃ ts, expand (includeOnce { gnuc := true, win32 := false, win64 := false }).defs 14 []
          (invocation "PyAPI_DATA" ["int", "__stdcall"]) = some ts ∧
        ts.filter isCallConv = ["__stdcall"]) :=
  ⟨by decide, by decide,
   annotations_add_no_calling_convention { gnuc := true, win32 := false, win64 := false }
     ["2.7"] ["int", "__stdcall"] 14 (by decide) (by decide) (by decide) (by decide)⟩

/-- C10, as stated, fails: where the header includes `patchlevel.h` and
`modsupport.h`, `WITH_THREAD` is not defined yet. -/
theorem WITH_THREAD_at_includes_counterexample :
    ∃ e ∈ apiIncludes { gnuc := true, win32 := false, win64 := false },
      "WITH_THREAD" ∉ e.definedNames := by
  decide

/-- C10, amended: in every configuration, at the `#include` of `patchlevel.h` and
at that of `modsupport.h` both type aliases `PyObject` and `Py_ssize_t` are
already defined, while `WITH_THREAD` is not: the header defines it only after
its last `#include`, so it is defined once the whole header has been
processed. -/
theorem aliases_defined_at_includes (cfg : Config) :
    (apiIncludes cfg).map (fun e => e.header) = ["patchlevel.h", "modsupport.h"] ∧
      (∀ e ∈ apiIncludes cfg,
        "PyObject" ∈ e.typedefNames ∧ "Py_ssize_t" ∈ e.typedefNames ∧
          "WITH_THREAD" ∉ e.definedNames) ∧
      (∀ e ∈ (includeOnce cfg).includes, "WITH_THREAD" ∉ e.definedNames) ∧
      (includeOnce cfg).isDefined "WITH_THREAD" = true := by
  rcases cfg with ⟨_ | _, _ | _, _ | _⟩ <;> decide

end PythonH
